import Mathlib

/-!
Verification of the LaserTracker hierarchical state machine (ThreadedHSM.hpp).

The C++ core is shallowly embedded:
* `Json` models `nlohmann::json` values (numbers as `ℚ`: the code only stores
  and retrieves numbers on the paths under study, it never rounds them);
* `StateMessage` models the flat `std::variant` of Events / Commands;
* `Registry.fromJson` / `Registry.toJson` model `MessageRegistry`'s
  fold-expression lookup; typed field access models `nlohmann`'s `get_to`,
  which throws `type_error` on a mismatched JSON type, hence the `Except`;
* `State` models the nested-variant state hierarchy, and `HSM.processMessage`
  models the bubble-up dispatch, returning the handled flag, the new state and
  the trace of `onEntry`/`onExit` calls (the `std::cout` diagnostics);
* `EngineState` / `ThreadedHSM.processMessage` model the worker-side dispatch:
  staleness discard, the sync deferral buffer, response delivery through a
  promise table or the response queue.  Exceptions escaping message processing
  (caught only in `workerLoop`) are modelled by the `Option Exc` component.
  The recursion `processMessage → processBufferedMessages → processMessage`
  terminates in C++ because the worker is single threaded; here it is paid for
  with an explicit fuel argument (fuel exhaustion is marked `Exc.fuelOut` and
  never occurs at the fuel used by the theorems).
-/

namespace LaserTracker

/-- JSON values as used by the core (`nlohmann::json`).  Arrays never occur on
the modelled paths; numbers are kept exact as rationals. -/
inductive Json where
  | null
  | bool (b : Bool)
  | num (q : ℚ)
  | str (s : String)
  | obj (fields : List (String × Json))

/-- Models `json::is_null()` -/
def Json.isNull : Json → Bool
  | .null => true
  | _ => false

/-- Models `json::empty()`: true for `null` and for empty objects, false for
primitive values (nlohmann semantics). -/
def Json.isEmpty : Json → Bool
  | .null => true
  | .obj l => l.isEmpty
  | _ => false

/-- Models `json::is_number()` -/
def Json.isNumber : Json → Bool
  | .num _ => true
  | _ => false

/-- Models `json::is_string()` -/
def Json.isString : Json → Bool
  | .str _ => true
  | _ => false

/-- Models `json::is_boolean()` -/
def Json.isBoolean : Json → Bool
  | .bool _ => true
  | _ => false

/-- Object member lookup (`json::at` / `operator[]` on a contained key). -/
def Json.find (j : Json) (key : String) : Option Json :=
  match j with
  | .obj fields => fields.lookup key
  | _ => none

/-- Models `json::contains(key)` -/
def Json.containsKey (j : Json) (key : String) : Bool :=
  (j.find key).isSome

/-- Exceptions that can escape message processing (caught in `workerLoop`),
plus the fuel marker used by the embedding of the worker recursion. -/
inductive Exc where
  | typeError
  | fuelOut
deriving DecidableEq

/-- Truncation toward zero, as in C++ `static_cast<int>(double)`. -/
def ratTrunc (q : ℚ) : Int :=
  q.num.tdiv q.den

/-- Models `get_to` into a `double` field: throws `type_error` unless the
value is a number. -/
def Json.getNum : Json → Except Exc ℚ
  | .num q => .ok q
  | _ => .error .typeError

/-- Models `get_to` into a `std::string` field. -/
def Json.getStr : Json → Except Exc String
  | .str s => .ok s
  | _ => .error .typeError

/-- Models `get_to` into an `int` field. -/
def Json.getInt : Json → Except Exc Int
  | .num q => .ok (ratTrunc q)
  | _ => .error .typeError

/-- The `from_json` pattern `if (j.contains(k)) j.at(k).get_to(field)`:
absent key keeps the default, present key must have the right type. -/
def Json.getNumField (j : Json) (key : String) (dflt : ℚ) : Except Exc ℚ :=
  match j.find key with
  | some v => v.getNum
  | none => .ok dflt

/-- See `Json.getNumField`. -/
def Json.getStrField (j : Json) (key : String) (dflt : String) : Except Exc String :=
  match j.find key with
  | some v => v.getStr
  | none => .ok dflt

/-- See `Json.getNumField`. -/
def Json.getIntField (j : Json) (key : String) (dflt : Int) : Except Exc Int :=
  match j.find key with
  | some v => v.getInt
  | none => .ok dflt

/-- Value of `json[k].get<uint64_t>()`, used only under an `is_number()`
guard. -/
def Json.asNat : Json → Nat
  | .num q => (ratTrunc q).toNat
  | _ => 0

/-- Value of `json[k].get<std::string>()`, used only under an `is_string()`
guard. -/
def Json.asStr : Json → String
  | .str s => s
  | _ => ""

/-- Value of `json[k].get<bool>()`, used only under an `is_boolean()` guard. -/
def Json.asBool : Json → Bool
  | .bool b => b
  | _ => false

/-- The flat `StateMessage` variant: Events, state-changing Commands and
Action Commands, with their data members. -/
inductive StateMessage where
  | initComplete
  | initFailed (errorReason : String)
  | targetFound (distance_mm : ℚ)
  | targetLost
  | measurementComplete (x y z : ℚ)
  | errorOccurred (errorCode : Int) (description : String)
  | powerOn
  | powerOff
  | startSearch
  | startMeasure
  | stopMeasure
  | reset
  | returnToIdle
  | home (speed : ℚ)
  | getPosition
  | setLaserPower (powerLevel : ℚ)
  | compensate (temperature pressure humidity : ℚ)
  | getStatus
  | moveRelative (azimuth elevation : ℚ)
deriving DecidableEq

/-- The static `name` member of each message type
(`StateMessageRegistry::getName`). -/
def StateMessage.getName : StateMessage → String
  | .initComplete => "InitComplete"
  | .initFailed _ => "InitFailed"
  | .targetFound _ => "TargetFound"
  | .targetLost => "TargetLost"
  | .measurementComplete _ _ _ => "MeasurementComplete"
  | .errorOccurred _ _ => "ErrorOccurred"
  | .powerOn => "PowerOn"
  | .powerOff => "PowerOff"
  | .startSearch => "StartSearch"
  | .startMeasure => "StartMeasure"
  | .stopMeasure => "StopMeasure"
  | .reset => "Reset"
  | .returnToIdle => "ReturnToIdle"
  | .home _ => "Home"
  | .getPosition => "GetPosition"
  | .setLaserPower _ => "SetLaserPower"
  | .compensate _ _ _ => "Compensate"
  | .getStatus => "GetStatus"
  | .moveRelative _ _ => "MoveRelative"

/-- Models `has_sync<T>::value`: whether the type declares a static `sync` member,
i.e. is an Action Command. -/
def StateMessage.hasSync : StateMessage → Bool
  | .home _ => true
  | .getPosition => true
  | .setLaserPower _ => true
  | .compensate _ _ _ => true
  | .getStatus => true
  | .moveRelative _ _ => true
  | _ => false

/-- Models `StateMessageRegistry::isSync`: the value of `T::sync` (false when the
member is absent). -/
def StateMessage.isSync : StateMessage → Bool
  | .home _ => true
  | .compensate _ _ _ => true
  | .moveRelative _ _ => true
  | _ => false

/-- The `to_json` ADL functions (`StateMessageRegistry::toJson`). -/
def StateMessage.toJson : StateMessage → Json
  | .initComplete => .obj []
  | .initFailed r => .obj [("errorReason", .str r)]
  | .targetFound d => .obj [("distance_mm", .num d)]
  | .targetLost => .obj []
  | .measurementComplete x y z => .obj [("x", .num x), ("y", .num y), ("z", .num z)]
  | .errorOccurred c d => .obj [("errorCode", .num (c : ℚ)), ("description", .str d)]
  | .powerOn => .obj []
  | .powerOff => .obj []
  | .startSearch => .obj []
  | .startMeasure => .obj []
  | .stopMeasure => .obj []
  | .reset => .obj []
  | .returnToIdle => .obj []
  | .home s => .obj [("speed", .num s)]
  | .getPosition => .obj []
  | .setLaserPower p => .obj [("powerLevel", .num p)]
  | .compensate t p h => .obj [("temperature", .num t), ("pressure", .num p), ("humidity", .num h)]
  | .getStatus => .obj []
  | .moveRelative a e => .obj [("azimuth", .num a), ("elevation", .num e)]

/-- The `from_json` ADL function of each type, reading each declared field
with its member-initializer default (`params.get<T>()`). -/
def StateMessage.fromParams : StateMessage → Json → Except Exc StateMessage
  | .initComplete, _ => .ok .initComplete
  | .initFailed _, j => do
    let r ← j.getStrField "errorReason" ""
    return .initFailed r
  | .targetFound _, j => do
    let d ← j.getNumField "distance_mm" 0
    return .targetFound d
  | .targetLost, _ => .ok .targetLost
  | .measurementComplete _ _ _, j => do
    let x ← j.getNumField "x" 0
    let y ← j.getNumField "y" 0
    let z ← j.getNumField "z" 0
    return .measurementComplete x y z
  | .errorOccurred _ _, j => do
    let c ← j.getIntField "errorCode" 0
    let d ← j.getStrField "description" ""
    return .errorOccurred c d
  | .powerOn, _ => .ok .powerOn
  | .powerOff, _ => .ok .powerOff
  | .startSearch, _ => .ok .startSearch
  | .startMeasure, _ => .ok .startMeasure
  | .stopMeasure, _ => .ok .stopMeasure
  | .reset, _ => .ok .reset
  | .returnToIdle, _ => .ok .returnToIdle
  | .home _, j => do
    let s ← j.getNumField "speed" 100
    return .home s
  | .getPosition, _ => .ok .getPosition
  | .setLaserPower _, j => do
    let p ← j.getNumField "powerLevel" 1
    return .setLaserPower p
  | .compensate _ _ _, j => do
    let t ← j.getNumField "temperature" 20
    let p ← j.getNumField "pressure" 1013.25
    let h ← j.getNumField "humidity" 50
    return .compensate t p h
  | .getStatus, _ => .ok .getStatus
  | .moveRelative _ _, j => do
    let a ← j.getNumField "azimuth" 0
    let e ← j.getNumField "elevation" 0
    return .moveRelative a e

/-- The default-constructed value `T{}` of each message type (all member
initializers). -/
def defaultOf : StateMessage → StateMessage
  | .initComplete => .initComplete
  | .initFailed _ => .initFailed ""
  | .targetFound _ => .targetFound 0
  | .targetLost => .targetLost
  | .measurementComplete _ _ _ => .measurementComplete 0 0 0
  | .errorOccurred _ _ => .errorOccurred 0 ""
  | .powerOn => .powerOn
  | .powerOff => .powerOff
  | .startSearch => .startSearch
  | .startMeasure => .startMeasure
  | .stopMeasure => .stopMeasure
  | .reset => .reset
  | .returnToIdle => .returnToIdle
  | .home _ => .home 100
  | .getPosition => .getPosition
  | .setLaserPower _ => .setLaserPower 1
  | .compensate _ _ _ => .compensate 20 1013.25 50
  | .getStatus => .getStatus
  | .moveRelative _ _ => .moveRelative 0 0

/-- The registered message types in variant order (the fold-expression order
of `StateMessageRegistry`), each represented by its default value. -/
def registeredTypes : List StateMessage :=
  [.initComplete, .initFailed "", .targetFound 0, .targetLost,
   .measurementComplete 0 0 0, .errorOccurred 0 "",
   .powerOn, .powerOff, .startSearch, .startMeasure, .stopMeasure, .reset,
   .returnToIdle,
   .home 100, .getPosition, .setLaserPower 1, .compensate 20 1013.25 50,
   .getStatus, .moveRelative 0 0]

namespace Registry

/-- Models `MessageRegistry::tryParseType<T>`: on a name match, build `T{}` and, when
the params are neither null nor empty, overwrite it via `params.get<T>()`. -/
def tryParseType (t : StateMessage) (name : String) (params : Json) :
    Option (Except Exc StateMessage) :=
  if name = t.getName then
    some (if !params.isNull && !params.isEmpty then t.fromParams params else .ok (defaultOf t))
  else
    none

/-- Walk the registered types in variant order until one matches the name
(the fold expression in `fromJson`/`fromJsonStateChanging`).  `skipActions`
models `tryParseTypeExcludeActions`. -/
def lookupChain (skipActions : Bool) (name : String) (params : Json) :
    List StateMessage → Except Exc (Option StateMessage)
  | [] => .ok none
  | t :: rest =>
    if skipActions && t.hasSync then
      lookupChain skipActions name params rest
    else
      match tryParseType t name params with
      | some r => r.map some
      | none => lookupChain skipActions name params rest

/-- Models `StateMessageRegistry::fromJson` (all types).  A `type_error` thrown by a
`get_to` propagates as `.error`. -/
def fromJson (name : String) (params : Json) : Except Exc (Option StateMessage) :=
  lookupChain false name params registeredTypes

/-- Models `StateMessageRegistry::fromJsonStateChanging` (Action Commands skipped). -/
def fromJsonStateChanging (name : String) (params : Json) : Except Exc (Option StateMessage) :=
  lookupChain true name params registeredTypes

end Registry

/-- Tracking sub-states with their data members. -/
inductive TrackingSubState where
  | searching (searchAngle : ℚ)
  | locked (targetDistance_mm : ℚ)
  | measuring (measurementCount : Int) (lastX lastY lastZ : ℚ)
deriving DecidableEq

/-- Operational sub-states with their data members; `tracking` is composite. -/
inductive OperationalSubState where
  | initializing (progress : Int)
  | idle
  | tracking (sub : TrackingSubState)
  | error (errorCode : Int) (description : String)
deriving DecidableEq

/-- Top-level state variant. -/
inductive State where
  | off
  | operational (sub : OperationalSubState)
deriving DecidableEq

/-- Models `States::Tracking{}` default-constructs its sub-state to `Searching{}`. -/
def trackingDefault : TrackingSubState := .searching 0

/-- Models `States::Operational{}` default-constructs its sub-state to
`Initializing{}`. -/
def operationalDefault : OperationalSubState := .initializing 0

/-- Static `name` of a tracking sub-state. -/
def TrackingSubState.stateName : TrackingSubState → String
  | .searching _ => "Searching"
  | .locked _ => "Locked"
  | .measuring _ _ _ _ => "Measuring"

/-- Models `Operational::getSubStateName`: leaf name, or `Tracking::<sub>`. -/
def OperationalSubState.getSubStateName : OperationalSubState → String
  | .initializing _ => "Initializing"
  | .idle => "Idle"
  | .tracking sub => "Tracking" ++ "::" ++ sub.stateName
  | .error _ _ => "Error"

/-- Models `HSM::getCurrentStateName`: the fully-qualified `::`-joined path. -/
def State.stateName : State → String
  | .off => "Off"
  | .operational sub => "Operational" ++ "::" ++ sub.getSubStateName

/-- One `onEntry`/`onExit` diagnostic call. -/
inductive Action where
  | enter (stateId : String)
  | exit (stateId : String)
deriving DecidableEq

/-- Trace of `onEntry` of a tracking sub-state. -/
def TrackingSubState.onEntry (s : TrackingSubState) : List Action :=
  [.enter s.stateName]

/-- Trace of `onExit` of a tracking sub-state. -/
def TrackingSubState.onExit (s : TrackingSubState) : List Action :=
  [.exit s.stateName]

/-- Trace of `onEntry` of an operational sub-state: `Tracking::onEntry` logs itself
first, then enters its active sub-state. -/
def OperationalSubState.onEntry : OperationalSubState → List Action
  | .initializing _ => [.enter "Initializing"]
  | .idle => [.enter "Idle"]
  | .tracking sub => .enter "Tracking" :: sub.onEntry
  | .error _ _ => [.enter "Error"]

/-- Trace of `onExit` of an operational sub-state: `Tracking::onExit` exits its active
sub-state first, then logs itself. -/
def OperationalSubState.onExit : OperationalSubState → List Action
  | .initializing _ => [.exit "Initializing"]
  | .idle => [.exit "Idle"]
  | .tracking sub => sub.onExit ++ [.exit "Tracking"]
  | .error _ _ => [.exit "Error"]

/-- Trace of `onEntry` of a top-level state (`Operational` enters itself, then its
active sub-state). -/
def State.onEntry : State → List Action
  | .off => [.enter "Off"]
  | .operational sub => .enter "Operational" :: sub.onEntry

/-- Trace of `onExit` of a top-level state (`Operational` exits its active sub-state
first). -/
def State.onExit : State → List Action
  | .off => [.exit "Off"]
  | .operational sub => sub.onExit ++ [.exit "Operational"]

/-- Models `HSM::transitionTo`: exit the current state, replace it, enter the new
state. -/
def transitionTo (cur new : State) : State × List Action :=
  (new, cur.onExit ++ new.onEntry)

/-- Models `HSM::transitionOperationalTo`: exit the active sub-state, replace it,
enter the new sub-state. -/
def transitionOperationalTo (cur new : OperationalSubState) :
    OperationalSubState × List Action :=
  (new, cur.onExit ++ new.onEntry)

/-- Models `HSM::transitionTrackingTo`. -/
def transitionTrackingTo (cur new : TrackingSubState) :
    TrackingSubState × List Action :=
  (new, cur.onExit ++ new.onEntry)

namespace HSM

/-- Models `HSM::handleTrackingSubMessage`, dispatched on the active tracking
sub-state. -/
def handleTrackingSubMessage (tsub : TrackingSubState) (msg : StateMessage) :
    Bool × TrackingSubState × List Action :=
  match tsub, msg with
  | .searching _, .targetFound d =>
    let (s, tr) := transitionTrackingTo tsub (.locked d)
    (true, s, tr)
  | .locked _, .startMeasure =>
    let (s, tr) := transitionTrackingTo tsub (.measuring 0 0 0 0)
    (true, s, tr)
  | .locked _, .targetLost =>
    let (s, tr) := transitionTrackingTo tsub (.searching 0)
    (true, s, tr)
  | .measuring c _ _ _, .measurementComplete mx my mz =>
    (true, .measuring (c + 1) mx my mz, [])
  | .measuring _ _ _ _, .stopMeasure =>
    let (s, tr) := transitionTrackingTo tsub (.locked 0)
    (true, s, tr)
  | .measuring _ _ _ _, .targetLost =>
    let (s, tr) := transitionTrackingTo tsub (.searching 0)
    (true, s, tr)
  | _, _ => (false, tsub, [])

/-- Models `HSM::handleOperationalSubMessage`, dispatched on the active operational
sub-state; `Tracking` first tries its own level, then its sub-states. -/
def handleOperationalSubMessage (sub : OperationalSubState) (msg : StateMessage) :
    Bool × OperationalSubState × List Action :=
  match sub, msg with
  | .initializing _, .initComplete =>
    let (s, tr) := transitionOperationalTo sub .idle
    (true, s, tr)
  | .initializing _, .initFailed r =>
    let (s, tr) := transitionOperationalTo sub (.error (-1) r)
    (true, s, tr)
  | .idle, .startSearch =>
    let (s, tr) := transitionOperationalTo sub (.tracking trackingDefault)
    (true, s, tr)
  | .idle, .errorOccurred c d =>
    let (s, tr) := transitionOperationalTo sub (.error c d)
    (true, s, tr)
  | .tracking _, .returnToIdle =>
    let (s, tr) := transitionOperationalTo sub .idle
    (true, s, tr)
  | .tracking tsub, .errorOccurred c d =>
    ((true, .error c d, (TrackingSubState.onExit tsub ++ [.exit "Tracking"]) ++ [.enter "Error"]) :
      Bool × OperationalSubState × List Action)
  | .tracking tsub, m =>
    let (handled, tsub2, tr) := handleTrackingSubMessage tsub m
    (handled, .tracking tsub2, tr)
  | .error _ _, .reset =>
    let (s, tr) := transitionOperationalTo sub (.initializing 0)
    (true, s, tr)
  | _, _ => (false, sub, [])

/-- Models `HSM::handleMessage`: `Off` handles `PowerOn`; `Operational` handles
`PowerOff` at its own level, then delegates to the sub-state handler. -/
def handleMessage (s : State) (msg : StateMessage) :
    Bool × State × List Action :=
  match s, msg with
  | .off, .powerOn =>
    let (s2, tr) := transitionTo s (.operational operationalDefault)
    (true, s2, tr)
  | .off, _ => (false, s, [])
  | .operational sub, .powerOff =>
    (true, .off, (OperationalSubState.onExit sub ++ [.exit "Operational"]) ++ [.enter "Off"])
  | .operational sub, m =>
    let (handled, sub2, tr) := handleOperationalSubMessage sub m
    (handled, .operational sub2, tr)

/-- Models `HSM::processMessage`: dispatch and report whether a transition (or
handled mutation) occurred. -/
def processMessage (s : State) (msg : StateMessage) :
    Bool × State × List Action :=
  handleMessage s msg

end HSM

/-- Post-state of one processed message. -/
def stepState (s : State) (msg : StateMessage) : State :=
  (HSM.processMessage s msg).2.1

/-- Fold a message sequence through the HSM, keeping only the state. -/
def runMessages (s : State) (msgs : List StateMessage) : State :=
  msgs.foldl stepState s

/-- The `measurementCount` member of the active `Measuring` sub-state, when in
it. -/
def State.measurementCount : State → Option Int
  | .operational (.tracking (.measuring c _ _ _)) => some c
  | _ => none

/-- Tests whether `pat` is a prefix of `s` (character lists). -/
def charsStartWith : List Char → List Char → Bool
  | [], _ => true
  | _ :: _, [] => false
  | a :: as, b :: bs => a == b && charsStartWith as bs

/-- Tests whether `pat` occurs inside `s` (character lists). -/
def charsOccurs (pat : List Char) : List Char → Bool
  | [] => charsStartWith pat []
  | c :: rest => charsStartWith pat (c :: rest) || charsOccurs pat rest

/-- Models `s.find(pat) != std::string::npos`: `pat` occurs as a substring of `s`. -/
def containsSubstr (s pat : String) : Bool :=
  charsOccurs pat.toList s.toList

/-- Models `ExecuteResult`: outcome of an action command's `execute`. -/
structure ExecuteResult where
  success : Bool
  params : Json
  error : String

/-- Models `ExecuteResult::ok` -/
def ExecuteResult.ok (result : Json) : ExecuteResult :=
  ⟨true, result, ""⟩

/-- Models `ExecuteResult::fail` -/
def ExecuteResult.fail (errorMsg : String) : ExecuteResult :=
  ⟨false, Json.obj [], errorMsg⟩

/-- Models `Commands::Home::execute`: valid only when the state name contains
"Idle"; on success returns the home position (the simulated motion delay has
no observable effect on the result). -/
def Commands.Home.execute (speed : ℚ) (currentState : String) : ExecuteResult :=
  if !containsSubstr currentState "Idle" then
    .fail ("Home command only valid in Idle state (current: " ++ currentState ++ ")")
  else
    .ok (.obj [("position", .obj [("azimuth", .num 0), ("elevation", .num 0)])])

/-- Models `Commands::GetPosition::execute`. -/
def Commands.GetPosition.execute (currentState : String) : ExecuteResult :=
  if containsSubstr currentState "Off" || containsSubstr currentState "Initializing" ||
      containsSubstr currentState "Error" then
    .fail ("GetPosition not available in " ++ currentState)
  else
    .ok (.obj [("position", .obj [("x", .num 1234.567), ("y", .num 2345.678),
      ("z", .num 345.789), ("azimuth", .num 45.123), ("elevation", .num 12.456)])])

/-- Models `Commands::SetLaserPower::execute`. -/
def Commands.SetLaserPower.execute (powerLevel : ℚ) (currentState : String) : ExecuteResult :=
  if containsSubstr currentState "Off" then
    .fail "SetLaserPower not available when powered off"
  else if powerLevel < 0 || powerLevel > 1 then
    .fail "Power level must be between 0.0 and 1.0"
  else
    .ok (.obj [("powerLevel", .num powerLevel)])

/-- Models `Commands::Compensate::execute`: valid in Idle or Locked.  The factor is
computed here in exact rational arithmetic; the C++ uses `double`, but no
claim concerns the factor's value. -/
def Commands.Compensate.execute (temperature pressure humidity : ℚ)
    (currentState : String) : ExecuteResult :=
  if !containsSubstr currentState "Idle" && !containsSubstr currentState "Locked" then
    .fail "Compensate only valid in Idle or Locked state"
  else
    let factor : ℚ := 1 + (temperature - 20) * 0.000001 + (pressure - 1013.25) * 0.0000001
    .ok (.obj [("compensationFactor", .num factor), ("applied", .bool true)])

/-- Models `Commands::GetStatus::execute`: no state restriction. -/
def Commands.GetStatus.execute (currentState : String) : ExecuteResult :=
  .ok (.obj [("state", .str currentState),
    ("healthy", .bool (!containsSubstr currentState "Error")),
    ("powered", .bool (!containsSubstr currentState "Off"))])

/-- Models `Commands::MoveRelative::execute`: valid in Idle or Locked.  The C++ move
time is `sqrt(az² + el²) * 10` over `double`; modelled with the rational
square-root approximation (no claim concerns the value). -/
def Commands.MoveRelative.execute (azimuth elevation : ℚ)
    (currentState : String) : ExecuteResult :=
  if !containsSubstr currentState "Idle" && !containsSubstr currentState "Locked" then
    .fail "MoveRelative only valid in Idle or Locked state"
  else
    let moveTime : ℚ := Rat.sqrt (azimuth * azimuth + elevation * elevation) * 10
    .ok (.obj [("movedAz", .num azimuth), ("movedEl", .num elevation),
      ("moveTimeMs", .num ((ratTrunc moveTime : Int) : ℚ))])

/-- Dispatch `cmd.execute(currentState)` for an Action Command; other message
types never reach this under the `has_sync` guard. -/
def StateMessage.execute (m : StateMessage) (currentState : String) : ExecuteResult :=
  match m with
  | .home s => Commands.Home.execute s currentState
  | .getPosition => Commands.GetPosition.execute currentState
  | .setLaserPower p => Commands.SetLaserPower.execute p currentState
  | .compensate t p h => Commands.Compensate.execute t p h currentState
  | .getStatus => Commands.GetStatus.execute currentState
  | .moveRelative a e => Commands.MoveRelative.execute a e currentState
  | _ => ExecuteResult.fail "not an action command"

/-- The unified `Message` envelope (requests and responses).  Timestamps are
milliseconds on an abstract monotonic clock. -/
structure Message where
  id : Nat
  name : String
  params : Json
  sync : Bool
  needsReply : Bool
  timeoutMs : Nat
  timestamp : Nat
  isResponse : Bool
  success : Bool
  error : String

/-- Models `Message()` with all member-initializer defaults, created at time `now`. -/
def Message.mkDefault (now : Nat) : Message :=
  ⟨0, "", .null, false, false, 5000, now, false, false, ""⟩

/-- Models `Message::isTimedOut` at time `now`: `timeoutMs == 0` never times out. -/
def Message.isTimedOut (m : Message) (now : Nat) : Bool :=
  if m.timeoutMs = 0 then false
  else now - m.timestamp > m.timeoutMs

/-- Models `Message::createResponse`. -/
def Message.createResponse (requestId : Nat) (success : Bool) (result : Json)
    (error : String) : Message :=
  ⟨requestId, "", result, false, false, 5000, 0, true, success, error⟩

/-- Models `Message::createTimeoutResponse`. -/
def Message.createTimeoutResponse (requestId : Nat) : Message :=
  Message.createResponse requestId false .null "Request timed out"

/-- The worker-side mutable state of `ThreadedHSM`: the HSM, the sync
in-progress flag, the deferral buffer, the promise table (keyed by id; the
fulfilled responses are logged in `promiseDeliveries`) and the pollable
response queue. -/
structure EngineState where
  hsm : State
  syncMessageInProgress : Bool
  messageBuffer : List Message
  pendingPromises : List Nat
  promiseDeliveries : List Message
  responseQueue : List Message

/-- Models `ThreadedHSM::processStateMessage`: run the HSM, report handled/state in
the result payload, failure response when not handled. -/
def processStateMessage (hsm : State) (msg : Message) (stateMsg : StateMessage) :
    State × Message :=
  let r := HSM.processMessage hsm stateMsg
  let handled := r.1
  let hsm2 := r.2.1
  let result : Json := .obj [("handled", .bool handled),
    ("state", .str hsm2.stateName), ("stateChanged", .bool handled)]
  if !handled then
    (hsm2, Message.createResponse msg.id false result "Message not handled in current state")
  else
    (hsm2, Message.createResponse msg.id true result "")

/-- Models `ThreadedHSM::processActionCommand`: parse via the full registry, then
dispatch to `execute` when the type has a static `sync` member. -/
def processActionCommand (currentState : String) (msg : Message) :
    Except Exc Message := do
  let actionCmd ← Registry.fromJson msg.name msg.params
  match actionCmd with
  | none => return Message.createResponse msg.id false .null ("Unknown message: " ++ msg.name)
  | some cmd =>
    if cmd.hasSync then
      let r := cmd.execute currentState
      return Message.createResponse msg.id r.success r.params r.error
    else
      return Message.createResponse msg.id false .null ("Not an action command: " ++ msg.name)

/-- Models `ThreadedHSM::processMessageContent`: try the message as a state message
first, otherwise as an action command.  A `type_error` thrown while converting
params propagates (it is caught only in `workerLoop`). -/
def processMessageContent (hsm : State) (msg : Message) :
    Except Exc (State × Message) := do
  let stateMsg ← Registry.fromJsonStateChanging msg.name msg.params
  match stateMsg with
  | some sm => return processStateMessage hsm msg sm
  | none =>
    let resp ← processActionCommand hsm.stateName msg
    return (hsm, resp)

/-- Response delivery: fulfil and erase a registered promise for this id, else
push onto the pollable response queue. -/
def deliverResponse (es : EngineState) (id : Nat) (resp : Message) : EngineState :=
  if es.pendingPromises.contains id then
    { es with pendingPromises := es.pendingPromises.erase id,
              promiseDeliveries := es.promiseDeliveries ++ [resp] }
  else
    { es with responseQueue := es.responseQueue ++ [resp] }

/-- The loop body of `ThreadedHSM::processBufferedMessages`: process the
drained messages in their original relative order, skipping (and erasing the
promise of) any that have timed out; an escaping exception aborts the rest
(it propagates to `workerLoop`). -/
def processBufferedGoWith (step : EngineState → Message → EngineState × Option Exc)
    (now : Nat) : EngineState → List Message → EngineState × Option Exc
  | es, [] => (es, none)
  | es, m :: rest =>
    if m.needsReply && m.isTimedOut now then
      processBufferedGoWith step now
        { es with pendingPromises := es.pendingPromises.erase m.id } rest
    else
      match step es m with
      | (es2, none) => processBufferedGoWith step now es2 rest
      | r => r

/-- Models `ThreadedHSM::processBufferedMessages`: swap the buffer out, then process
its contents in order. -/
def processBufferedMessagesWith (step : EngineState → Message → EngineState × Option Exc)
    (now : Nat) (es : EngineState) : EngineState × Option Exc :=
  processBufferedGoWith step now { es with messageBuffer := [] } es.messageBuffer

/-- The body of `ThreadedHSM::processMessage` for one dequeued envelope at
time `now`: stale-discard, sync deferral, content processing, response
delivery, then (for sync) clearing the flag and draining the buffer with
`step`.  The second component is an exception escaping to `workerLoop`
(`none` = normal completion). -/
def ThreadedHSM.processMessageWith
    (step : EngineState → Message → EngineState × Option Exc) (now : Nat)
    (es : EngineState) (msg : Message) : EngineState × Option Exc :=
  if msg.needsReply && msg.isTimedOut now then
    ({ es with pendingPromises := es.pendingPromises.erase msg.id }, none)
  else if es.syncMessageInProgress && msg.sync then
    ({ es with messageBuffer := es.messageBuffer ++ [msg] }, none)
  else
    let es1 := if msg.sync then { es with syncMessageInProgress := true } else es
    match processMessageContent es1.hsm msg with
    | .error e => (es1, some e)
    | .ok (hsm2, resp) =>
      let es2 := { es1 with hsm := hsm2 }
      let es3 := if msg.needsReply then deliverResponse es2 msg.id resp else es2
      if msg.sync then
        processBufferedMessagesWith step now { es3 with syncMessageInProgress := false }
      else
        (es3, none)

/-- Models `ThreadedHSM::processMessage`: the recursion through
`processBufferedMessages` back into `processMessage` terminates in C++
because the worker is single-threaded; here it is paid for with the explicit
`fuel` bound (`Exc.fuelOut` marks exhaustion and never occurs at the fuel the
theorems use). -/
def ThreadedHSM.processMessage : (fuel : Nat) → (now : Nat) →
    EngineState → Message → EngineState × Option Exc
  | fuel, now, es, msg =>
    ThreadedHSM.processMessageWith
      (match fuel with
       | 0 => fun es4 _ => (es4, some Exc.fuelOut)
       | f + 1 => fun es4 m4 => ThreadedHSM.processMessage f now es4 m4)
      now es msg

/-- Models `ThreadedHSM::parseJsonMessage` applied to the collaborator codec's parse
outcome (`Json::parse` succeeded or threw `parse_error`).  On a parse error
the catch block reports to the operator (second component `true`) and the
default-constructed `Message` is returned unchanged. -/
def ThreadedHSM.parseJsonMessage (parsed : Except Unit Json) (now : Nat) :
    Message × Bool :=
  let msg := Message.mkDefault now
  match parsed with
  | .error _ => (msg, true)
  | .ok j =>
    let at_ := fun (k : String) => (j.find k).getD .null
    let msg := if j.containsKey "id" && (at_ "id").isNumber then
        { msg with id := (at_ "id").asNat } else msg
    let msg := if j.containsKey "name" && (at_ "name").isString then
        { msg with name := (at_ "name").asStr } else msg
    let msg := if j.containsKey "params" then
        { msg with params := at_ "params" } else msg
    let msg := if j.containsKey "sync" && (at_ "sync").isBoolean then
        { msg with sync := (at_ "sync").asBool } else msg
    let msg := if j.containsKey "needsReply" && (at_ "needsReply").isBoolean then
        { msg with needsReply := (at_ "needsReply").asBool }
      else
        { msg with needsReply := msg.sync }
    let msg := if j.containsKey "timeoutMs" && (at_ "timeoutMs").isNumber then
        { msg with timeoutMs := (at_ "timeoutMs").asNat } else msg
    (msg, false)

/-- Models `ThreadedHSM::sendJsonMessage`: parse the text, assign a fresh id when the
payload carried none (or parsing failed), and enqueue the envelope on the
message queue.  Returns the queue and the envelope's id. -/
def ThreadedHSM.sendJsonMessage (parsed : Except Unit Json) (now : Nat)
    (nextMessageId : Nat) (messageQueue : List Message) : List Message × Nat :=
  let msg := (ThreadedHSM.parseJsonMessage parsed now).1
  let msg := if msg.id = 0 then { msg with id := nextMessageId } else msg
  (messageQueue ++ [msg], msg.id)

/-- The transition table of spec section 4.3, written from the spec's words
(not from the code), for comparison with `HSM.processMessage`.  `none` means
the table has no row for the pair.  Fresh composite states carry the initial
sub-state data the spec prescribes (`Operational` starts `Initializing`,
`Tracking` starts `Searching`); the `MeasurementComplete` row keeps the state
and increments the point counter, recording the last point. -/
def Spec.tableNext : State → StateMessage → Option State
  | .off, .powerOn => some (.operational (.initializing 0))
  | .operational _, .powerOff => some .off
  | .operational (.initializing _), .initComplete => some (.operational .idle)
  | .operational (.initializing _), .initFailed r => some (.operational (.error (-1) r))
  | .operational .idle, .startSearch => some (.operational (.tracking (.searching 0)))
  | .operational .idle, .errorOccurred c d => some (.operational (.error c d))
  | .operational (.tracking _), .returnToIdle => some (.operational .idle)
  | .operational (.tracking _), .errorOccurred c d => some (.operational (.error c d))
  | .operational (.tracking (.searching _)), .targetFound dist =>
    some (.operational (.tracking (.locked dist)))
  | .operational (.tracking (.locked _)), .startMeasure =>
    some (.operational (.tracking (.measuring 0 0 0 0)))
  | .operational (.tracking (.locked _)), .targetLost =>
    some (.operational (.tracking (.searching 0)))
  | .operational (.tracking (.measuring c _ _ _)), .measurementComplete mx my mz =>
    some (.operational (.tracking (.measuring (c + 1) mx my mz)))
  | .operational (.tracking (.measuring _ _ _ _)), .stopMeasure =>
    some (.operational (.tracking (.locked 0)))
  | .operational (.tracking (.measuring _ _ _ _)), .targetLost =>
    some (.operational (.tracking (.searching 0)))
  | .operational (.error _ _), .reset => some (.operational (.initializing 0))
  | _, _ => none

/-- A sync `PowerOn` envelope as deferred in the C7 drain scenario. -/
def mPowerOnSync : Message := ⟨2, "PowerOn", .null, true, false, 0, 0, false, false, ""⟩

/-- A deferred envelope (id 7) that needs a reply and has timed out by the
time the buffer is drained. -/
def mStale7 : Message := ⟨7, "GetStatus", .null, true, true, 10, 0, false, false, ""⟩

/-- A sync `InitComplete` envelope as deferred in the C7 drain scenario. -/
def mInitCompleteSync : Message :=
  ⟨3, "InitComplete", .null, true, false, 0, 0, false, false, ""⟩

/-- The sync `GetStatus` envelope whose completion triggers the drain. -/
def mGetStatusSync : Message := ⟨1, "GetStatus", .null, true, false, 0, 0, false, false, ""⟩

/-- Worker state for the C7 drain scenario: three deferred envelopes, and a
promise registered for id 7. -/
def esScenario : EngineState :=
  ⟨.off, false, [mPowerOnSync, mStale7, mInitCompleteSync], [7], [], []⟩

/-- The drain step of `ThreadedHSM.processMessage 3 1000`. -/
def step2Scenario : EngineState → Message → EngineState × Option Exc :=
  fun es m => ThreadedHSM.processMessage 2 1000 es m

/-- A deferred sync envelope whose `distance_mm` param has the wrong JSON
type, so processing it throws a `type_error`. -/
def mBadSync : Message :=
  ⟨42, "TargetFound", .obj [("distance_mm", .str "far")], true, false, 0, 0, false, false, ""⟩

/-- A deferred sync `GetStatus` envelope (id 99) that needs a reply, never
times out, and whose params convert cleanly. -/
def mGoodSync99 : Message := ⟨99, "GetStatus", .null, true, true, 0, 0, false, false, ""⟩

/-- The exit-then-entry sequence prescribed for a transition from `s` to
`s2`: performed at the innermost composite level containing both states, with
exits innermost-first and entries outermost-first (those orders are the
recursive `onExit`/`onEntry` definitions above). -/
def levelTrace : State → State → List Action
  | .operational (.tracking ta), .operational (.tracking tb) => ta.onExit ++ tb.onEntry
  | .operational a, .operational b =>
    OperationalSubState.onExit a ++ OperationalSubState.onEntry b
  | s, s2 => s.onExit ++ s2.onEntry

end LaserTracker

namespace LaserTracker

/-- C1. For every state (in particular every reachable one) and every message,
`HSM::processMessage` reports a transition exactly when the spec table of
section 4.3 has a row for the pair, and the post-state is exactly the one the
table prescribes; the PowerOn/InitComplete/StartSearch/TargetFound(5000)/
StartMeasure scenario passes through the table's fully-qualified state names,
and three further MeasurementComplete messages keep the name
`Operational::Tracking::Measuring` with `measurementCount = 3`. -/
theorem c1_transitions_follow_table :
    (∀ (s : State) (m : StateMessage),
      (HSM.processMessage s m).1 = (Spec.tableNext s m).isSome ∧
      (HSM.processMessage s m).2.1 = (Spec.tableNext s m).getD s) ∧
    (runMessages .off [.powerOn]).stateName = "Operational::Initializing" ∧
    (runMessages .off [.powerOn, .initComplete]).stateName = "Operational::Idle" ∧
    (runMessages .off [.powerOn, .initComplete, .startSearch]).stateName =
      "Operational::Tracking::Searching" ∧
    (runMessages .off [.powerOn, .initComplete, .startSearch,
      .targetFound 5000]).stateName = "Operational::Tracking::Locked" ∧
    (runMessages .off [.powerOn, .initComplete, .startSearch, .targetFound 5000,
      .startMeasure]).stateName = "Operational::Tracking::Measuring" ∧
    (runMessages .off [.powerOn, .initComplete, .startSearch, .targetFound 5000,
      .startMeasure, .measurementComplete 1 2 3, .measurementComplete 4 5 6,
      .measurementComplete 7 8 9]).stateName = "Operational::Tracking::Measuring" ∧
    (runMessages .off [.powerOn, .initComplete, .startSearch, .targetFound 5000,
      .startMeasure, .measurementComplete 1 2 3, .measurementComplete 4 5 6,
      .measurementComplete 7 8 9]).measurementCount = some 3 := by
  refine ⟨fun s m => ?_, rfl, rfl, rfl, rfl, rfl, rfl, rfl⟩
  cases s with
  | off => cases m <;> exact ⟨rfl, rfl⟩
  | operational sub =>
    cases sub with
    | initializing p => cases m <;> exact ⟨rfl, rfl⟩
    | idle => cases m <;> exact ⟨rfl, rfl⟩
    | error ec ed => cases m <;> exact ⟨rfl, rfl⟩
    | tracking tsub =>
      cases tsub with
      | searching a => cases m <;> exact ⟨rfl, rfl⟩
      | locked dd => cases m <;> exact ⟨rfl, rfl⟩
      | measuring c x y z => cases m <;> exact ⟨rfl, rfl⟩

/-- C2. For every state and message with no row in the spec table,
`HSM::processMessage` returns false and leaves the state (including all
nested sub-state data) unchanged, emitting no entry/exit action; in
particular a second `PowerOn` in any Operational state is a no-op. -/
theorem c2_unmatched_message_is_noop :
    (∀ (s : State) (m : StateMessage), Spec.tableNext s m = none →
      HSM.processMessage s m = (false, s, [])) ∧
    (∀ sub : OperationalSubState,
      HSM.processMessage (.operational sub) .powerOn = (false, .operational sub, [])) := by
  constructor
  · intro s m
    cases s with
    | off => cases m <;> intro h <;> first | rfl | exact Option.noConfusion h
    | operational sub =>
      cases sub with
      | initializing p => cases m <;> intro h <;> first | rfl | exact Option.noConfusion h
      | idle => cases m <;> intro h <;> first | rfl | exact Option.noConfusion h
      | error ec ed => cases m <;> intro h <;> first | rfl | exact Option.noConfusion h
      | tracking tsub =>
        cases tsub with
        | searching a => cases m <;> intro h <;> first | rfl | exact Option.noConfusion h
        | locked dd => cases m <;> intro h <;> first | rfl | exact Option.noConfusion h
        | measuring c x y z => cases m <;> intro h <;> first | rfl | exact Option.noConfusion h
  · intro sub
    cases sub with
    | initializing p => rfl
    | idle => rfl
    | error ec ed => rfl
    | tracking tsub => cases tsub <;> rfl

/-- Witness for C2: `PowerOn` in `Operational::Idle` has no table row, and the
engine leaves the state unchanged reporting "not handled". -/
theorem c2_unmatched_message_is_noop_witness :
    Spec.tableNext (.operational .idle) .powerOn = none ∧
    HSM.processMessage (.operational .idle) .powerOn =
      (false, .operational .idle, []) :=
  ⟨rfl, c2_unmatched_message_is_noop.1 (.operational .idle) .powerOn rfl⟩

/-- C4. Every name-changing transition emits exactly the exit actions of the
currently active state at the transition's composite level (innermost-first)
followed by the entry actions of the new state (outermost-first); handled or
ignored messages that change no active state name emit no entry/exit action.
Entering `Operational` fresh also enters `Initializing`, and entering
`Tracking` fresh also enters `Searching`. -/
theorem c4_entry_exit_ordering :
    (∀ (s : State) (m : StateMessage),
      ((HSM.processMessage s m).2.2 = [] ∧
        ((HSM.processMessage s m).2.1).stateName = s.stateName) ∨
      (HSM.processMessage s m).2.2 = levelTrace s (HSM.processMessage s m).2.1) ∧
    HSM.processMessage .off .powerOn =
      (true, .operational (.initializing 0),
        [.exit "Off", .enter "Operational", .enter "Initializing"]) ∧
    HSM.processMessage (.operational .idle) .startSearch =
      (true, .operational (.tracking (.searching 0)),
        [.exit "Idle", .enter "Tracking", .enter "Searching"]) := by
  refine ⟨fun s m => ?_, rfl, rfl⟩
  cases s with
  | off => cases m <;> first | exact Or.inl ⟨rfl, rfl⟩ | exact Or.inr rfl
  | operational sub =>
    cases sub with
    | initializing p => cases m <;> first | exact Or.inl ⟨rfl, rfl⟩ | exact Or.inr rfl
    | idle => cases m <;> first | exact Or.inl ⟨rfl, rfl⟩ | exact Or.inr rfl
    | error ec ed => cases m <;> first | exact Or.inl ⟨rfl, rfl⟩ | exact Or.inr rfl
    | tracking tsub =>
      cases tsub with
      | searching a => cases m <;> first | exact Or.inl ⟨rfl, rfl⟩ | exact Or.inr rfl
      | locked dd => cases m <;> first | exact Or.inl ⟨rfl, rfl⟩ | exact Or.inr rfl
      | measuring c x y z => cases m <;> first | exact Or.inl ⟨rfl, rfl⟩ | exact Or.inr rfl

/-- Truncating cast of an integer-valued rational returns the integer. -/
theorem ratTrunc_intCast (c : Int) : ratTrunc (c : ℚ) = c := by
  rw [ratTrunc, Rat.num_intCast, Rat.den_intCast]
  exact Int.tdiv_one c

/-- C3. For every registered message type and every instance, converting to
JSON and back through the registry returns an equal value; a `Home` with no
"speed" key in its params is constructed with the declared default
`speed = 100.0`. -/
theorem c3_registry_roundtrip :
    (∀ m : StateMessage,
      Registry.fromJson m.getName m.toJson = .ok (some m)) ∧
    Registry.fromJson "Home" (.obj []) = .ok (some (.home 100)) := by
  constructor
  · intro m
    have hEO : ∀ (c : Int) (d : String),
        Registry.fromJson (StateMessage.errorOccurred c d).getName
          (StateMessage.errorOccurred c d).toJson = .ok (some (.errorOccurred c d)) := by
      intro c d
      show Except.ok (some (StateMessage.errorOccurred (ratTrunc (c : ℚ)) d)) =
        Except.ok (some (StateMessage.errorOccurred c d))
      rw [ratTrunc_intCast]
    cases m <;> first | rfl | exact hEO _ _
  · rfl

/-- C10. `StopMeasure` in `Operational::Tracking::Measuring` transitions to
`Locked` with the default `targetDistance_mm = 0`, regardless of the
`Measuring` data; in the concrete scenario the 5000.0 acquired by
`TargetFound` is not restored after the measuring session. -/
theorem c10_stopMeasure_default_locked :
    (∀ (c : Int) (x y z : ℚ),
      HSM.processMessage (.operational (.tracking (.measuring c x y z))) .stopMeasure =
        (true, .operational (.tracking (.locked 0)),
          [.exit "Measuring", .enter "Locked"])) ∧
    runMessages .off [.powerOn, .initComplete, .startSearch, .targetFound 5000] =
      .operational (.tracking (.locked 5000)) ∧
    runMessages .off [.powerOn, .initComplete, .startSearch, .targetFound 5000,
      .startMeasure, .stopMeasure] = .operational (.tracking (.locked 0)) :=
  ⟨fun _ _ _ _ => rfl, rfl, rfl⟩

theorem exceptBind_ok {α β ε : Type} (x : α) (f : α → Except ε β) :
    (Except.ok x >>= f) = f x := rfl

theorem exceptBind_error {α β ε : Type} (e : ε) (f : α → Except ε β) :
    ((Except.error e : Except ε α) >>= f) = .error e := rfl

/-- A string with a non-empty left part is non-empty. -/
theorem stringAppend_ne_empty (a b : String) (h : a.length ≠ 0) : a ++ b ≠ "" := by
  intro hh
  have hlen := congrArg String.length hh
  rw [String.length_append] at hlen
  rw [show String.length "" = 0 from rfl] at hlen
  omega

/-- Every failing `execute` carries a human-readable (non-empty) reason. -/
theorem executeFail_error_ne (m : StateMessage) (cs : String)
    (h : (m.execute cs).success = false) : (m.execute cs).error ≠ "" := by
  have hHome : String.length "Home command only valid in Idle state (current: " ≠ 0 := by
    decide
  cases m with
  | home s =>
    show (Commands.Home.execute s cs).error ≠ ""
    have h2 : (Commands.Home.execute s cs).success = false := h
    unfold Commands.Home.execute at h2 ⊢
    split_ifs at h2 ⊢ with hc
    · exact stringAppend_ne_empty _ _ (by rw [String.length_append]; omega)
    · simp [ExecuteResult.ok] at h2
  | getPosition =>
    show (Commands.GetPosition.execute cs).error ≠ ""
    have h2 : (Commands.GetPosition.execute cs).success = false := h
    unfold Commands.GetPosition.execute at h2 ⊢
    split_ifs at h2 ⊢ with hc
    · exact stringAppend_ne_empty _ _ (by decide)
    · simp [ExecuteResult.ok] at h2
  | setLaserPower p =>
    show (Commands.SetLaserPower.execute p cs).error ≠ ""
    have h2 : (Commands.SetLaserPower.execute p cs).success = false := h
    unfold Commands.SetLaserPower.execute at h2 ⊢
    split_ifs at h2 ⊢ with hc1 hc2
    · decide
    · decide
    · simp [ExecuteResult.ok] at h2
  | compensate t p hu =>
    show (Commands.Compensate.execute t p hu cs).error ≠ ""
    have h2 : (Commands.Compensate.execute t p hu cs).success = false := h
    unfold Commands.Compensate.execute at h2 ⊢
    split_ifs at h2 ⊢ with hc
    · decide
    · simp [ExecuteResult.ok] at h2
  | getStatus =>
    have h2 : (Commands.GetStatus.execute cs).success = false := h
    unfold Commands.GetStatus.execute at h2
    simp [ExecuteResult.ok] at h2
  | moveRelative a e =>
    show (Commands.MoveRelative.execute a e cs).error ≠ ""
    have h2 : (Commands.MoveRelative.execute a e cs).success = false := h
    unfold Commands.MoveRelative.execute at h2 ⊢
    split_ifs at h2 ⊢ with hc
    · decide
    · simp [ExecuteResult.ok] at h2
  | initComplete => show (ExecuteResult.fail "not an action command").error ≠ ""; decide
  | initFailed r => show (ExecuteResult.fail "not an action command").error ≠ ""; decide
  | targetFound d => show (ExecuteResult.fail "not an action command").error ≠ ""; decide
  | targetLost => show (ExecuteResult.fail "not an action command").error ≠ ""; decide
  | measurementComplete x y z =>
    show (ExecuteResult.fail "not an action command").error ≠ ""; decide
  | errorOccurred c d => show (ExecuteResult.fail "not an action command").error ≠ ""; decide
  | powerOn => show (ExecuteResult.fail "not an action command").error ≠ ""; decide
  | powerOff => show (ExecuteResult.fail "not an action command").error ≠ ""; decide
  | startSearch => show (ExecuteResult.fail "not an action command").error ≠ ""; decide
  | startMeasure => show (ExecuteResult.fail "not an action command").error ≠ ""; decide
  | stopMeasure => show (ExecuteResult.fail "not an action command").error ≠ ""; decide
  | reset => show (ExecuteResult.fail "not an action command").error ≠ ""; decide
  | returnToIdle => show (ExecuteResult.fail "not an action command").error ≠ ""; decide

/-- The response built by `processStateMessage` reuses the request id and has
a non-empty error exactly when the message was not handled. -/
theorem processStateMessage_resp (hsm : State) (msg : Message) (sm : StateMessage) :
    (processStateMessage hsm msg sm).2.id = msg.id ∧
    ((processStateMessage hsm msg sm).2.success = false →
      (processStateMessage hsm msg sm).2.error ≠ "") := by
  unfold processStateMessage
  rcases HSM.processMessage hsm sm with ⟨handled, hsm2, tr⟩
  cases handled
  · exact ⟨rfl, fun _ => (by decide : "Message not handled in current state" ≠ "")⟩
  · exact ⟨rfl, fun hf => Bool.noConfusion hf⟩

/-- The response built by `processActionCommand` reuses the request id, and
carries a non-empty error whenever it reports failure. -/
theorem processActionCommand_resp (cs : String) (msg : Message) (r : Message)
    (h : processActionCommand cs msg = .ok r) :
    r.id = msg.id ∧ (r.success = false → r.error ≠ "") := by
  have hUnk : String.length "Unknown message: " ≠ 0 := by decide
  have hNac : String.length "Not an action command: " ≠ 0 := by decide
  rcases hf : Registry.fromJson msg.name msg.params with e | o
  · exfalso
    unfold processActionCommand at h
    rw [hf, exceptBind_error] at h
    exact Except.noConfusion h
  · unfold processActionCommand at h
    rw [hf, exceptBind_ok] at h
    cases o with
    | none =>
      have h2 : (Except.ok (Message.createResponse msg.id false .null
          ("Unknown message: " ++ msg.name)) : Except Exc Message) = Except.ok r := h
      injection h2 with h3
      rw [← h3]
      exact ⟨rfl, fun _ => stringAppend_ne_empty _ _ hUnk⟩
    | some cmd =>
      have h2 : (if cmd.hasSync = true then
          (Except.ok (Message.createResponse msg.id (cmd.execute cs).success
            (cmd.execute cs).params (cmd.execute cs).error) : Except Exc Message)
        else
          Except.ok (Message.createResponse msg.id false .null
            ("Not an action command: " ++ msg.name))) = Except.ok r := h
      by_cases hs : cmd.hasSync = true
      · rw [if_pos hs] at h2
        injection h2 with h3
        rw [← h3]
        exact ⟨rfl, fun hfail => executeFail_error_ne cmd cs hfail⟩
      · rw [if_neg hs] at h2
        injection h2 with h3
        rw [← h3]
        exact ⟨rfl, fun _ => stringAppend_ne_empty _ _ hNac⟩

/-- Every response `processMessageContent` produces reuses the request id and
has a non-empty error string whenever it reports failure. -/
theorem processMessageContent_resp (hsm : State) (msg : Message) (st : State)
    (r : Message) (h : processMessageContent hsm msg = .ok (st, r)) :
    r.id = msg.id ∧ (r.success = false → r.error ≠ "") := by
  unfold processMessageContent at h
  rcases hf : Registry.fromJsonStateChanging msg.name msg.params with e | o
  · rw [hf, exceptBind_error] at h
    exact Except.noConfusion h
  · rw [hf, exceptBind_ok] at h
    cases o with
    | some sm =>
      have h2 : (Except.ok (processStateMessage hsm msg sm) :
          Except Exc (State × Message)) = .ok (st, r) := h
      injection h2 with h3
      have h4 := processStateMessage_resp hsm msg sm
      rw [h3] at h4
      exact h4
    | none =>
      have h2 : (processActionCommand (State.stateName hsm) msg >>=
          fun resp => (pure (hsm, resp) : Except Exc (State × Message))) = .ok (st, r) := h
      rcases hA : processActionCommand (State.stateName hsm) msg with e | resp
      · rw [hA, exceptBind_error] at h2
        exact Except.noConfusion h2
      · rw [hA, exceptBind_ok] at h2
        have h5 : (Except.ok (hsm, resp) : Except Exc (State × Message)) = .ok (st, r) := h2
        injection h5 with h6
        have h7 : resp = r := congrArg Prod.snd h6
        rw [← h7]
        exact processActionCommand_resp _ _ _ hA

/-- C8. Each Action Command validates the current state name by textual
containment: `Home` succeeds exactly when the name contains "Idle" (and then
returns the home-position payload), `Compensate` and `MoveRelative` exactly
when it contains "Idle" or "Locked", `GetStatus` always; every failing
`execute` carries a non-empty reason; and the action-command path of
`processMessageContent` returns the hierarchical state unchanged. -/
theorem c8_action_state_validation :
    (∀ (speed : ℚ) (st : String),
      (Commands.Home.execute speed st).success = containsSubstr st "Idle") ∧
    (∀ (speed : ℚ) (st : String), containsSubstr st "Idle" = true →
      (Commands.Home.execute speed st).params =
        .obj [("position", .obj [("azimuth", .num 0), ("elevation", .num 0)])]) ∧
    (∀ (t p hu : ℚ) (st : String),
      (Commands.Compensate.execute t p hu st).success =
        (containsSubstr st "Idle" || containsSubstr st "Locked")) ∧
    (∀ (a e : ℚ) (st : String),
      (Commands.MoveRelative.execute a e st).success =
        (containsSubstr st "Idle" || containsSubstr st "Locked")) ∧
    (∀ st : String, (Commands.GetStatus.execute st).success = true) ∧
    (∀ (m : StateMessage) (st : String), (m.execute st).success = false →
      (m.execute st).error ≠ "") ∧
    (∀ (hsm : State) (msg : Message) (out : State × Message),
      Registry.fromJsonStateChanging msg.name msg.params = .ok none →
      processMessageContent hsm msg = .ok out → out.1 = hsm) := by
  refine ⟨?_, ?_, ?_, ?_, fun st => rfl, executeFail_error_ne, ?_⟩
  · intro speed st
    by_cases hc : containsSubstr st "Idle" <;>
      simp [Commands.Home.execute, hc, ExecuteResult.ok, ExecuteResult.fail]
  · intro speed st hc
    simp [Commands.Home.execute, hc, ExecuteResult.ok]
  · intro t p hu st
    by_cases hc1 : containsSubstr st "Idle" <;> by_cases hc2 : containsSubstr st "Locked" <;>
      simp [Commands.Compensate.execute, hc1, hc2, ExecuteResult.ok, ExecuteResult.fail]
  · intro a e st
    by_cases hc1 : containsSubstr st "Idle" <;> by_cases hc2 : containsSubstr st "Locked" <;>
      simp [Commands.MoveRelative.execute, hc1, hc2, ExecuteResult.ok, ExecuteResult.fail]
  · intro hsm msg out h1 h2
    have h3 : (processActionCommand (State.stateName hsm) msg >>=
        fun resp => (pure (hsm, resp) : Except Exc (State × Message))) = .ok out := by
      have h4 : processMessageContent hsm msg =
          (processActionCommand (State.stateName hsm) msg >>=
            fun resp => (pure (hsm, resp) : Except Exc (State × Message))) := by
        unfold processMessageContent
        rw [h1, exceptBind_ok]
      rw [← h4]
      exact h2
    rcases hA : processActionCommand (State.stateName hsm) msg with e | resp
    · rw [hA, exceptBind_error] at h3
      exact Except.noConfusion h3
    · rw [hA, exceptBind_ok] at h3
      have h5 : (Except.ok (hsm, resp) : Except Exc (State × Message)) = Except.ok out := h3
      injection h5 with h6
      rw [← h6]

/-- Witness for C8: `Home{speed:50}` in `Operational::Idle` succeeds and
returns the home-position payload; the same command in
`Operational::Tracking::Locked` fails with a non-empty reason. -/
theorem c8_action_state_validation_witness :
    (Commands.Home.execute 50 "Operational::Idle").params =
      .obj [("position", .obj [("azimuth", .num 0), ("elevation", .num 0)])] ∧
    ((StateMessage.home 50).execute "Operational::Tracking::Locked").error ≠ "" :=
  ⟨c8_action_state_validation.2.1 50 "Operational::Idle" (by decide),
   c8_action_state_validation.2.2.2.2.2.1 (.home 50) "Operational::Tracking::Locked"
     (by decide)⟩

/-- Delivering a response never touches the sync in-progress flag. -/
theorem deliverResponse_flag (es : EngineState) (id : Nat) (r : Message) :
    (deliverResponse es id r).syncMessageInProgress = es.syncMessageInProgress := by
  unfold deliverResponse
  split_ifs <;> rfl

/-- If the per-message step leaves a cleared flag cleared, so does draining a
message list (the skip branch does not touch the flag). -/
theorem goFlag (step : EngineState → Message → EngineState × Option Exc) (now : Nat)
    (hstep : ∀ es2 m2, es2.syncMessageInProgress = false → (step es2 m2).2 = none →
      ((step es2 m2).1).syncMessageInProgress = false) :
    ∀ (l : List Message) (es : EngineState), es.syncMessageInProgress = false →
      (processBufferedGoWith step now es l).2 = none →
      ((processBufferedGoWith step now es l).1).syncMessageInProgress = false := by
  intro l
  induction l with
  | nil => intro es h1 _; exact h1
  | cons m rest ih =>
    intro es h1 h2
    unfold processBufferedGoWith at h2 ⊢
    by_cases hst : (m.needsReply && m.isTimedOut now) = true
    · rw [if_pos hst] at h2 ⊢
      exact ih _ h1 h2
    · rw [if_neg hst] at h2 ⊢
      rcases hs : step es m with ⟨es2, exc⟩
      rw [hs] at h2
      cases exc with
      | none =>
        have h3 := hstep es m h1 (by rw [hs])
        rw [hs] at h3
        exact ih es2 h3 h2
      | some e => simp at h2

/-- Draining the whole buffer keeps a cleared flag cleared when the
per-message step does. -/
theorem pbmwFlag (step : EngineState → Message → EngineState × Option Exc) (now : Nat)
    (hstep : ∀ es2 m2, es2.syncMessageInProgress = false → (step es2 m2).2 = none →
      ((step es2 m2).1).syncMessageInProgress = false)
    (es : EngineState) (h1 : es.syncMessageInProgress = false)
    (h2 : (processBufferedMessagesWith step now es).2 = none) :
    ((processBufferedMessagesWith step now es).1).syncMessageInProgress = false := by
  unfold processBufferedMessagesWith at h2 ⊢
  exact goFlag step now hstep es.messageBuffer { es with messageBuffer := [] } h1 h2

/-- The worker body never completes normally with the sync in-progress flag
set, provided the drain step has the same property. -/
theorem pmWithFlag (step : EngineState → Message → EngineState × Option Exc)
    (now : Nat) (es : EngineState) (msg : Message)
    (hstep : ∀ es2 m2, es2.syncMessageInProgress = false → (step es2 m2).2 = none →
      ((step es2 m2).1).syncMessageInProgress = false)
    (h1 : es.syncMessageInProgress = false)
    (h2 : (ThreadedHSM.processMessageWith step now es msg).2 = none) :
    ((ThreadedHSM.processMessageWith step now es msg).1).syncMessageInProgress = false := by
  unfold ThreadedHSM.processMessageWith at h2 ⊢
  by_cases hst : (msg.needsReply && msg.isTimedOut now) = true
  · rw [if_pos hst]
    exact h1
  · rw [if_neg hst] at h2 ⊢
    have hbuf : ¬((es.syncMessageInProgress && msg.sync) = true) := by
      rw [h1]
      simp
    rw [if_neg hbuf] at h2 ⊢
    by_cases hsy : msg.sync = true
    · rw [hsy] at h2 ⊢
      simp only [if_true] at h2 ⊢
      rcases hc : processMessageContent
          ({ es with syncMessageInProgress := true } : EngineState).hsm msg
        with e | ⟨hsm2, resp⟩
      · rw [hc] at h2
        exact absurd h2 (by simp)
      · rw [hc] at h2
        exact pbmwFlag step now hstep _ rfl h2
    · have hsy2 : msg.sync = false := by
        cases hq : msg.sync
        · rfl
        · exact absurd hq hsy
      rw [hsy2] at h2 ⊢
      simp only [Bool.false_eq_true, if_false] at h2 ⊢
      rcases hc : processMessageContent es.hsm msg with e | ⟨hsm2, resp⟩
      · rw [hc] at h2
        exact absurd h2 (by simp)
      · rw [hc] at h2
        by_cases hnr : msg.needsReply = true
        · rw [hnr]
          simp only [if_true]
          rw [deliverResponse_flag]
          exact h1
        · have hnr2 : msg.needsReply = false := by
            cases hq : msg.needsReply
            · rfl
            · exact absurd hq hnr
          rw [hnr2]
          simp only [if_false]
          exact h1

/-- The worker step never completes normally with the sync in-progress flag
set (any fuel). -/
theorem pmFlag : ∀ (fuel now : Nat) (es : EngineState) (m : Message),
    es.syncMessageInProgress = false →
    (ThreadedHSM.processMessage fuel now es m).2 = none →
    ((ThreadedHSM.processMessage fuel now es m).1).syncMessageInProgress = false := by
  intro fuel
  induction fuel with
  | zero =>
    intro now es m h1 h2
    exact pmWithFlag _ now es m
      (fun es2 m2 _ hnone => absurd hnone (by simp)) h1 h2
  | succ f ih =>
    intro now es m h1 h2
    exact pmWithFlag _ now es m
      (fun es2 m2 hf hnone => ih now es2 m2 hf hnone) h1 h2

/-- Delivering a response only appends to the delivery lists. -/
theorem deliverResponse_mono (es : EngineState) (id : Nat) (r : Message) :
    es.promiseDeliveries <+: (deliverResponse es id r).promiseDeliveries ∧
    es.responseQueue <+: (deliverResponse es id r).responseQueue := by
  unfold deliverResponse
  split_ifs
  · exact ⟨⟨[r], rfl⟩, List.prefix_rfl⟩
  · exact ⟨List.prefix_rfl, ⟨[r], rfl⟩⟩

/-- Draining a message list only appends to the delivery lists, when the
per-message step does. -/
theorem goMono (step : EngineState → Message → EngineState × Option Exc) (now : Nat)
    (hstep : ∀ es2 m2,
      es2.promiseDeliveries <+: ((step es2 m2).1).promiseDeliveries ∧
      es2.responseQueue <+: ((step es2 m2).1).responseQueue) :
    ∀ (l : List Message) (es : EngineState),
      es.promiseDeliveries <+: ((processBufferedGoWith step now es l).1).promiseDeliveries ∧
      es.responseQueue <+: ((processBufferedGoWith step now es l).1).responseQueue := by
  intro l
  induction l with
  | nil => intro es; exact ⟨List.prefix_rfl, List.prefix_rfl⟩
  | cons m rest ih =>
    intro es
    unfold processBufferedGoWith
    by_cases hst : (m.needsReply && m.isTimedOut now) = true
    · rw [if_pos hst]
      exact ih { es with pendingPromises := es.pendingPromises.erase m.id }
    · rw [if_neg hst]
      rcases hs : step es m with ⟨es2, exc⟩
      have hm := hstep es m
      rw [hs] at hm
      cases exc with
      | none =>
        have h2 := ih es2
        exact ⟨hm.1.trans h2.1, hm.2.trans h2.2⟩
      | some e =>
        exact hm

/-- The whole drain only appends to the delivery lists. -/
theorem pbmwMono (step : EngineState → Message → EngineState × Option Exc) (now : Nat)
    (hstep : ∀ es2 m2,
      es2.promiseDeliveries <+: ((step es2 m2).1).promiseDeliveries ∧
      es2.responseQueue <+: ((step es2 m2).1).responseQueue)
    (es : EngineState) :
    es.promiseDeliveries <+: ((processBufferedMessagesWith step now es).1).promiseDeliveries ∧
    es.responseQueue <+: ((processBufferedMessagesWith step now es).1).responseQueue := by
  unfold processBufferedMessagesWith
  exact goMono step now hstep es.messageBuffer { es with messageBuffer := [] }

/-- The worker body only appends to the delivery lists, when the drain step
does. -/
theorem pmWithMono (step : EngineState → Message → EngineState × Option Exc)
    (now : Nat) (es : EngineState) (msg : Message)
    (hstep : ∀ es2 m2,
      es2.promiseDeliveries <+: ((step es2 m2).1).promiseDeliveries ∧
      es2.responseQueue <+: ((step es2 m2).1).responseQueue) :
    es.promiseDeliveries <+:
      ((ThreadedHSM.processMessageWith step now es msg).1).promiseDeliveries ∧
    es.responseQueue <+:
      ((ThreadedHSM.processMessageWith step now es msg).1).responseQueue := by
  unfold ThreadedHSM.processMessageWith
  by_cases hst : (msg.needsReply && msg.isTimedOut now) = true
  · rw [if_pos hst]
    exact ⟨List.prefix_rfl, List.prefix_rfl⟩
  · rw [if_neg hst]
    by_cases hbuf : (es.syncMessageInProgress && msg.sync) = true
    · rw [if_pos hbuf]
      exact ⟨List.prefix_rfl, List.prefix_rfl⟩
    · rw [if_neg hbuf]
      by_cases hsy : msg.sync = true
      · rw [hsy]
        simp only [if_true]
        rcases hc : processMessageContent
            ({ es with syncMessageInProgress := true } : EngineState).hsm msg
          with e | ⟨hsm2, resp⟩
        · exact ⟨List.prefix_rfl, List.prefix_rfl⟩
        · by_cases hnr : msg.needsReply = true
          · rw [hnr]
            simp only [if_true]
            have hd := deliverResponse_mono
              { es with syncMessageInProgress := true, hsm := hsm2 } msg.id resp
            have hg := pbmwMono step now hstep
              { (deliverResponse { es with syncMessageInProgress := true, hsm := hsm2 }
                  msg.id resp) with syncMessageInProgress := false }
            exact ⟨hd.1.trans hg.1, hd.2.trans hg.2⟩
          · have hnr2 : msg.needsReply = false := by
              cases hq : msg.needsReply
              · rfl
              · exact absurd hq hnr
            rw [hnr2]
            simp only [Bool.false_eq_true, if_false]
            have hg := pbmwMono step now hstep
              { ({ es with syncMessageInProgress := true, hsm := hsm2 } : EngineState) with
                syncMessageInProgress := false }
            exact ⟨hg.1, hg.2⟩
      · have hsy2 : msg.sync = false := by
          cases hq : msg.sync
          · rfl
          · exact absurd hq hsy
        rw [hsy2]
        simp only [Bool.false_eq_true, if_false]
        rcases hc : processMessageContent es.hsm msg with e | ⟨hsm2, resp⟩
        · exact ⟨List.prefix_rfl, List.prefix_rfl⟩
        · by_cases hnr : msg.needsReply = true
          · rw [hnr]
            simp only [if_true]
            exact deliverResponse_mono { es with hsm := hsm2 } msg.id resp
          · have hnr2 : msg.needsReply = false := by
              cases hq : msg.needsReply
              · rfl
              · exact absurd hq hnr
            rw [hnr2]
            simp only [Bool.false_eq_true, if_false]
            exact ⟨List.prefix_rfl, List.prefix_rfl⟩

/-- The worker step only appends to the delivery lists (any fuel). -/
theorem pmMono : ∀ (fuel now : Nat) (es : EngineState) (m : Message),
    es.promiseDeliveries <+:
      ((ThreadedHSM.processMessage fuel now es m).1).promiseDeliveries ∧
    es.responseQueue <+:
      ((ThreadedHSM.processMessage fuel now es m).1).responseQueue := by
  intro fuel
  induction fuel with
  | zero =>
    intro now es m
    exact pmWithMono _ now es m (fun es2 m2 => ⟨List.prefix_rfl, List.prefix_rfl⟩)
  | succ f ih =>
    intro now es m
    exact pmWithMono _ now es m (fun es2 m2 => ih now es2 m2)

/-- A directly-processed sync request with `needsReply = true` whose content
processing succeeds gets its Response delivered before the drain, and the
drain only appends, so the Response is in the final delivery lists. -/
theorem pmWithDeliverSync (step : EngineState → Message → EngineState × Option Exc)
    (now : Nat) (es : EngineState) (msg : Message) (hsm2 : State) (resp : Message)
    (hstep : ∀ es2 m2,
      es2.promiseDeliveries <+: ((step es2 m2).1).promiseDeliveries ∧
      es2.responseQueue <+: ((step es2 m2).1).responseQueue)
    (h1 : es.syncMessageInProgress = false) (h2 : msg.sync = true)
    (h3 : msg.needsReply = true) (h4 : msg.isTimedOut now = false)
    (h5 : processMessageContent es.hsm msg = .ok (hsm2, resp)) :
    resp ∈ ((ThreadedHSM.processMessageWith step now es msg).1).promiseDeliveries ∨
    resp ∈ ((ThreadedHSM.processMessageWith step now es msg).1).responseQueue := by
  unfold ThreadedHSM.processMessageWith
  have hst : ¬((msg.needsReply && msg.isTimedOut now) = true) := by simp [h3, h4]
  rw [if_neg hst]
  have hbuf : ¬((es.syncMessageInProgress && msg.sync) = true) := by simp [h1]
  rw [if_neg hbuf]
  rw [h2]
  simp only [if_true]
  have h5' : processMessageContent
      ({ es with syncMessageInProgress := true } : EngineState).hsm msg =
      Except.ok (hsm2, resp) := h5
  rw [h5']
  rw [h3]
  simp only [if_true]
  have hmem : resp ∈ (deliverResponse
      { es with syncMessageInProgress := true, hsm := hsm2 } msg.id resp).promiseDeliveries ∨
      resp ∈ (deliverResponse
      { es with syncMessageInProgress := true, hsm := hsm2 } msg.id resp).responseQueue := by
    unfold deliverResponse
    split_ifs
    · exact Or.inl (by simp)
    · exact Or.inr (by simp)
  have hg := pbmwMono step now hstep
    { (deliverResponse { es with syncMessageInProgress := true, hsm := hsm2 } msg.id resp) with
      syncMessageInProgress := false }
  rcases hmem with hh | hh
  · exact Or.inl (hg.1.subset hh)
  · exact Or.inr (hg.2.subset hh)

/-- When a buffered envelope's processing raises, the drain aborts on the
spot: the rest of the drained list is dropped and the exception propagates. -/
theorem goAbortLemma (step : EngineState → Message → EngineState × Option Exc)
    (now : Nat) (es es2 : EngineState) (m : Message) (rest : List Message) (e : Exc)
    (h1 : (m.needsReply && m.isTimedOut now) = false)
    (h2 : step es m = (es2, some e)) :
    processBufferedGoWith step now es (m :: rest) = (es2, some e) := by
  conv_lhs => unfold processBufferedGoWith
  rw [if_neg (by simp [h1]), h2]

/-- Counterexample to C9: a well-formed `TargetFound` request with
`needsReply = true` whose `distance_mm` param is a string makes the `get_to`
conversion throw; the exception escapes to `workerLoop` and the worker
delivers no Response at all for that id — neither a promise fulfilment nor a
response-queue entry, and the state machine is untouched. -/
theorem c9_counterexample_type_error_no_response :
    (⟨42, "TargetFound", .obj [("distance_mm", .str "far")], false, true, 0, 0,
      false, false, ""⟩ : Message).needsReply = true ∧
    ThreadedHSM.processMessage 1 5 ⟨.off, false, [], [], [], []⟩
      ⟨42, "TargetFound", .obj [("distance_mm", .str "far")], false, true, 0, 0,
        false, false, ""⟩ =
      (⟨.off, false, [], [], [], []⟩, some Exc.typeError) :=
  ⟨rfl, rfl⟩

set_option maxHeartbeats 1600000 in
/-- C9 (amended). Every Response `processMessageContent` produces reuses the
request id and carries a non-empty error on failure.  For a request with
`needsReply = true` whose params convert without a type error and which the
worker processes directly (not already timed out when dequeued, not deferred
to the sync buffer): a non-sync request yields exactly one Response with its
id, delivered to the registered promise or the response queue, and that is
the only engine-state change beyond the HSM update; a direct sync request's
Response is likewise delivered (before the buffer drain), so it is in the
final delivery lists.  The carve-outs are real: params of an unexpected JSON
type raise an exception and the worker produces no Response for that id, and
a deferred request — even one with convertible params — is lost without any
Response when an earlier buffered envelope's exception aborts the drain (the
concrete run: a sync `GetStatus` completion drains `[mBadSync, mGoodSync99]`;
the type error of id 42 aborts the drain, so the well-formed `needsReply`
request id 99 is dropped, its promise left pending, and the sync flag stays
stuck).  In those cases the caller can only observe its own timeout. -/
theorem c9_amended_exactly_one_response :
    (∀ (hsm : State) (msg : Message) (st : State) (r : Message),
      processMessageContent hsm msg = .ok (st, r) →
      r.id = msg.id ∧ (r.success = false → r.error ≠ "")) ∧
    (∀ (fuel now : Nat) (es : EngineState) (msg : Message) (hsm2 : State)
        (resp : Message),
      msg.needsReply = true → msg.isTimedOut now = false → msg.sync = false →
      processMessageContent es.hsm msg = .ok (hsm2, resp) →
      ThreadedHSM.processMessage fuel now es msg =
        (deliverResponse { es with hsm := hsm2 } msg.id resp, none)) ∧
    (∀ (fuel now : Nat) (es : EngineState) (msg : Message) (hsm2 : State)
        (resp : Message),
      es.syncMessageInProgress = false → msg.sync = true →
      msg.needsReply = true → msg.isTimedOut now = false →
      processMessageContent es.hsm msg = .ok (hsm2, resp) →
      resp ∈ ((ThreadedHSM.processMessage fuel now es msg).1).promiseDeliveries ∨
      resp ∈ ((ThreadedHSM.processMessage fuel now es msg).1).responseQueue) ∧
    (∀ (es : EngineState) (id : Nat) (r : Message),
      (deliverResponse es id r).promiseDeliveries.length +
        (deliverResponse es id r).responseQueue.length =
        es.promiseDeliveries.length + es.responseQueue.length + 1 ∧
      ((deliverResponse es id r).promiseDeliveries = es.promiseDeliveries ++ [r] ∨
        (deliverResponse es id r).responseQueue = es.responseQueue ++ [r])) ∧
    mGoodSync99.needsReply = true ∧
    processMessageContent State.off mGoodSync99 =
      .ok (.off, Message.createResponse 99 true
        (.obj [("state", .str "Off"), ("healthy", .bool true),
          ("powered", .bool false)]) "") ∧
    ThreadedHSM.processMessage 3 1000
      ⟨.off, false, [mBadSync, mGoodSync99], [99], [], []⟩ mGetStatusSync =
      (⟨.off, true, [], [99], [], []⟩, some Exc.typeError) := by
  refine ⟨processMessageContent_resp, ?_, ?_, ?_, rfl, rfl, ?_⟩
  · intro fuel now es msg hsm2 resp h1 h2 h3 h4
    unfold ThreadedHSM.processMessage ThreadedHSM.processMessageWith
    simp [h1, h2, h3, h4]
  · intro fuel now es msg hsm2 resp h1 h2 h3 h4 h5
    cases fuel with
    | zero =>
      exact pmWithDeliverSync _ now es msg hsm2 resp
        (fun es2 m2 => ⟨List.prefix_rfl, List.prefix_rfl⟩) h1 h2 h3 h4 h5
    | succ f =>
      exact pmWithDeliverSync _ now es msg hsm2 resp
        (fun es2 m2 => pmMono f now es2 m2) h1 h2 h3 h4 h5
  · intro es id r
    unfold deliverResponse
    by_cases hc : es.pendingPromises.contains id = true
    · rw [if_pos hc]
      constructor
      · simp
        omega
      · exact Or.inl rfl
    · rw [if_neg hc]
      constructor
      · simp
        omega
      · exact Or.inr rfl
  · have e1 : ThreadedHSM.processMessage 3 1000
        ⟨.off, false, [mBadSync, mGoodSync99], [99], [], []⟩ mGetStatusSync =
        processBufferedGoWith step2Scenario 1000 ⟨.off, false, [], [99], [], []⟩
          [mBadSync, mGoodSync99] := rfl
    have e2 : step2Scenario ⟨.off, false, [], [99], [], []⟩ mBadSync =
        (⟨.off, true, [], [99], [], []⟩, some Exc.typeError) := rfl
    rw [e1, goAbortLemma step2Scenario 1000 ⟨.off, false, [], [99], [], []⟩
      ⟨.off, true, [], [99], [], []⟩ mBadSync [mGoodSync99] Exc.typeError rfl e2]

/-- Witness for C9 (amended): a `GetStatus` request with `needsReply = true`
processed in `Off` yields exactly one success Response with the same id. -/
theorem c9_amended_exactly_one_response_witness :
    ThreadedHSM.processMessage 1 5 ⟨.off, false, [], [], [], []⟩
      ⟨9, "GetStatus", .null, false, true, 0, 0, false, false, ""⟩ =
      (deliverResponse { (⟨.off, false, [], [], [], []⟩ : EngineState) with
        hsm := State.off } 9
        (Message.createResponse 9 true
          (.obj [("state", .str "Off"), ("healthy", .bool true),
            ("powered", .bool false)]) ""), none) :=
  c9_amended_exactly_one_response.2.1 1 5 ⟨.off, false, [], [], [], []⟩
    ⟨9, "GetStatus", .null, false, true, 0, 0, false, false, ""⟩ State.off
    (Message.createResponse 9 true
      (.obj [("state", .str "Off"), ("healthy", .bool true),
        ("powered", .bool false)]) "")
    rfl rfl rfl rfl

/-- Draining skips a timed-out `needsReply` envelope, erasing its promise. -/
theorem goSkipLemma (step : EngineState → Message → EngineState × Option Exc)
    (now : Nat) (es : EngineState) (m : Message) (rest : List Message)
    (h1 : (m.needsReply && m.isTimedOut now) = true) :
    processBufferedGoWith step now es (m :: rest) =
      processBufferedGoWith step now
        { es with pendingPromises := es.pendingPromises.erase m.id } rest := by
  conv_lhs => unfold processBufferedGoWith
  rw [if_pos h1]

/-- Draining processes a live envelope in place, then continues with the
rest of the buffer in order. -/
theorem goStepLemma (step : EngineState → Message → EngineState × Option Exc)
    (now : Nat) (es es2 : EngineState) (m : Message) (rest : List Message)
    (h1 : (m.needsReply && m.isTimedOut now) = false)
    (h2 : step es m = (es2, none)) :
    processBufferedGoWith step now es (m :: rest) =
      processBufferedGoWith step now es2 rest := by
  conv_lhs => unfold processBufferedGoWith
  rw [if_neg (by simp [h1]), h2]

set_option maxHeartbeats 1600000 in
/-- C7. (1) While a sync envelope is in progress, another sync envelope is
appended to the deferral buffer and nothing else changes.  (2) When a sync
envelope completes, the flag is cleared and the buffer is drained.  (3)-(4)
The drain walks the buffered envelopes in their original relative order:
a timed-out `needsReply` envelope is skipped with its promise erased, any
other is processed in place.  (5) A normally-completing worker step never
leaves the flag set.  (6) A concrete run: completing a sync `GetStatus` with
buffer `[PowerOn, stale GetStatus (id 7), InitComplete]` processes the
survivors in order (reaching `Operational::Idle` from `Off`), erases promise
7, and ends with a clear flag and empty buffer. -/
theorem c7_sync_deferral_buffer :
    (∀ (fuel now : Nat) (es : EngineState) (msg : Message),
      (msg.needsReply && msg.isTimedOut now) = false →
      es.syncMessageInProgress = true → msg.sync = true →
      ThreadedHSM.processMessage fuel now es msg =
        ({ es with messageBuffer := es.messageBuffer ++ [msg] }, none)) ∧
    (∀ (fuel now : Nat) (es : EngineState) (msg : Message) (hsm2 : State)
        (resp : Message),
      es.syncMessageInProgress = false → msg.sync = true →
      (msg.needsReply && msg.isTimedOut now) = false →
      processMessageContent es.hsm msg = .ok (hsm2, resp) →
      ThreadedHSM.processMessage (fuel + 1) now es msg =
        processBufferedMessagesWith
          (fun es4 m4 => ThreadedHSM.processMessage fuel now es4 m4) now
          { (if msg.needsReply then
              deliverResponse { es with syncMessageInProgress := true, hsm := hsm2 }
                msg.id resp
            else { es with syncMessageInProgress := true, hsm := hsm2 }) with
            syncMessageInProgress := false }) ∧
    (∀ (step : EngineState → Message → EngineState × Option Exc) (now : Nat)
        (es : EngineState) (m : Message) (rest : List Message),
      (m.needsReply && m.isTimedOut now) = true →
      processBufferedGoWith step now es (m :: rest) =
        processBufferedGoWith step now
          { es with pendingPromises := es.pendingPromises.erase m.id } rest) ∧
    (∀ (step : EngineState → Message → EngineState × Option Exc) (now : Nat)
        (es es2 : EngineState) (m : Message) (rest : List Message),
      (m.needsReply && m.isTimedOut now) = false →
      step es m = (es2, none) →
      processBufferedGoWith step now es (m :: rest) =
        processBufferedGoWith step now es2 rest) ∧
    (∀ (fuel now : Nat) (es : EngineState) (m : Message),
      es.syncMessageInProgress = false →
      (ThreadedHSM.processMessage fuel now es m).2 = none →
      ((ThreadedHSM.processMessage fuel now es m).1).syncMessageInProgress = false) ∧
    ThreadedHSM.processMessage 3 1000 esScenario mGetStatusSync =
      (⟨.operational .idle, false, [], [], [], []⟩, none) := by
  refine ⟨?_, ?_, goSkipLemma, goStepLemma, pmFlag, ?_⟩
  · intro fuel now es msg h1 h2 h3
    unfold ThreadedHSM.processMessage ThreadedHSM.processMessageWith
    simp [h1, h2, h3]
  · intro fuel now es msg hsm2 resp h1 h2 h3 h4
    show ThreadedHSM.processMessageWith
      (fun es4 m4 => ThreadedHSM.processMessage fuel now es4 m4) now es msg = _
    unfold ThreadedHSM.processMessageWith
    simp [h1, h2, h3, h4]
  · have e1 : ThreadedHSM.processMessage 3 1000 esScenario mGetStatusSync =
        processBufferedGoWith step2Scenario 1000 ⟨.off, false, [], [7], [], []⟩
          [mPowerOnSync, mStale7, mInitCompleteSync] := rfl
    have e2 : step2Scenario ⟨.off, false, [], [7], [], []⟩ mPowerOnSync =
        (⟨.operational (.initializing 0), false, [], [7], [], []⟩, none) := rfl
    have e3 : step2Scenario ⟨.operational (.initializing 0), false, [], [], [], []⟩
        mInitCompleteSync = (⟨.operational .idle, false, [], [], [], []⟩, none) := rfl
    rw [e1]
    rw [goStepLemma step2Scenario 1000 ⟨.off, false, [], [7], [], []⟩
      ⟨.operational (.initializing 0), false, [], [7], [], []⟩ mPowerOnSync
      [mStale7, mInitCompleteSync] rfl e2]
    rw [goSkipLemma step2Scenario 1000
      ⟨.operational (.initializing 0), false, [], [7], [], []⟩ mStale7
      [mInitCompleteSync] rfl]
    show processBufferedGoWith step2Scenario 1000
      ⟨.operational (.initializing 0), false, [], [], [], []⟩ [mInitCompleteSync] =
      (⟨.operational .idle, false, [], [], [], []⟩, none)
    rw [goStepLemma step2Scenario 1000
      ⟨.operational (.initializing 0), false, [], [], [], []⟩
      ⟨.operational .idle, false, [], [], [], []⟩ mInitCompleteSync [] rfl e3]
    rfl

/-- Witness for C7: with the in-progress flag set, a sync `PowerOn` envelope
is moved to the deferral buffer and nothing else changes. -/
theorem c7_sync_deferral_buffer_witness :
    ThreadedHSM.processMessage 1 50 ⟨.off, true, [], [], [], []⟩
      ⟨4, "PowerOn", .null, true, false, 0, 0, false, false, ""⟩ =
      ({ (⟨.off, true, [], [], [], []⟩ : EngineState) with
        messageBuffer := ([] : List Message) ++
          [⟨4, "PowerOn", .null, true, false, 0, 0, false, false, ""⟩] }, none) :=
  c7_sync_deferral_buffer.1 1 50 ⟨.off, true, [], [], [], []⟩
    ⟨4, "PowerOn", .null, true, false, 0, 0, false, false, ""⟩ rfl rfl rfl

/-- Counterexample to C5: when the JSON text fails to parse, the (default
constructed) envelope is still enqueued, with a fresh id — the message queue
does not stay empty. -/
theorem c5_counterexample_malformed_is_enqueued :
    (ThreadedHSM.sendJsonMessage (.error ()) 1000 5 []).1 =
      [{ Message.mkDefault 1000 with id := 5 }] ∧
    ¬((ThreadedHSM.sendJsonMessage (.error ()) 1000 5 []).1 = []) := by
  refine ⟨rfl, ?_⟩
  intro hh
  have h2 : ({ Message.mkDefault 1000 with id := 5 } :: ([] : List Message)) = [] := hh
  exact List.noConfusion h2

/-- C5 (amended). A parse failure is reported to the operator, but the
default-constructed envelope (empty name, `needsReply = false`) is still
enqueued with a fresh id; when the worker processes it, it fails as an
unknown message, delivers no response, and leaves the engine state (and the
HSM) unchanged. -/
theorem c5_amended_malformed_reported_enqueued_harmless :
    (∀ now : Nat, (ThreadedHSM.parseJsonMessage (.error ()) now).2 = true) ∧
    (∀ (now nextId : Nat) (q : List Message),
      ThreadedHSM.sendJsonMessage (.error ()) now nextId q =
        (q ++ [{ Message.mkDefault now with id := nextId }], nextId)) ∧
    (∀ (fuel now2 created nextId : Nat) (es : EngineState),
      ThreadedHSM.processMessage fuel now2 es
        { Message.mkDefault created with id := nextId } = (es, none)) := by
  refine ⟨fun now => rfl, fun now nextId q => rfl, ?_⟩
  intro fuel now2 created nextId es
  unfold ThreadedHSM.processMessage ThreadedHSM.processMessageWith
  simp [Message.mkDefault, Message.isTimedOut, processMessageContent,
    processActionCommand, exceptBind_ok,
    show Registry.fromJsonStateChanging "" Json.null = .ok none from rfl,
    show Registry.fromJson "" Json.null = .ok none from rfl]
  rfl

/-- C6. An envelope dequeued with `needsReply = true` whose age exceeds its
non-zero `timeoutMs` is discarded: the HSM state, the buffer and the queues
are untouched and only its promise registration is erased; an envelope with
`timeoutMs = 0` never reports as timed out. -/
theorem c6_stale_envelope_discarded :
    (∀ (fuel now : Nat) (es : EngineState) (msg : Message),
      msg.needsReply = true → msg.timeoutMs ≠ 0 →
      now - msg.timestamp > msg.timeoutMs →
      ThreadedHSM.processMessage fuel now es msg =
        ({ es with pendingPromises := es.pendingPromises.erase msg.id }, none)) ∧
    (∀ (now : Nat) (msg : Message), msg.timeoutMs = 0 →
      msg.isTimedOut now = false) := by
  constructor
  · intro fuel now es msg h1 h2 h3
    have ht : msg.isTimedOut now = true := by
      simp [Message.isTimedOut, h2, h3]
    unfold ThreadedHSM.processMessage ThreadedHSM.processMessageWith
    simp [h1, ht]
  · intro now msg h
    simp [Message.isTimedOut, h]

/-- Witness for C6: an envelope created at time 0 with a 10 ms timeout,
dequeued at time 100, is dropped and its promise erased. -/
theorem c6_stale_envelope_discarded_witness :
    ThreadedHSM.processMessage 1 100
      ⟨.off, false, [], [7], [], []⟩
      ⟨7, "PowerOn", .null, false, true, 10, 0, false, false, ""⟩ =
      ({ (⟨.off, false, [], [7], [], []⟩ : EngineState) with
        pendingPromises := ([7] : List Nat).erase 7 }, none) :=
  c6_stale_envelope_discarded.1 1 100 _ _ rfl (by decide) (by decide)

end LaserTracker
